import Mathlib

/-!
Verification of `src/components/script/dom/attr.rs` (servo DOM attribute core).

The Rust source is shallowly embedded: `DOMString` becomes `String`, the
interned `Atom` and `Namespace` types become wrappers around `String`
(interning only affects performance, not observable values), the tagged
union `AttrValue` becomes an inductive type, and the `Attr` struct becomes
a Lean structure whose `DOMRefCell<AttrValue>` value cell is a plain field
(mutation is modelled by returning the updated structure).  The polymorphic
vtable hooks `before_remove_attr` / `after_set_attr` are modelled by an
event trace: `set_value` returns, besides the updated attribute, the list
of hook invocations in call order, each event carrying the attribute state
the hook was handed.
-/

/-- `DOMString` from `servo_util::str`: an owned text string. -/
abbrev DOMString : Type := String

/-- `string_cache::Atom`: an interned string.  Interning is a pure
deduplication service, so the model keeps just the string contents. -/
structure Atom where
  str : String
deriving DecidableEq

/-- `Atom::from_slice`. -/
def Atom.from_slice (s : String) : Atom := ⟨s⟩

/-- `Atom::as_slice`: the textual contents of the interned string. -/
def Atom.as_slice (a : Atom) : String := a.str

/-- `string_cache::Namespace`: a tuple struct wrapping an interned atom. -/
structure Namespace where
  ns_atom : Atom
deriving DecidableEq

/-- The null namespace `ns!("")`: the distinguished empty-namespace value. -/
def Namespace.null : Namespace := ⟨Atom.from_slice ""⟩

/-- The HTML space characters used by `servo_util::str::split_html_space_chars`
(space, tab, line feed, form feed, carriage return). -/
def is_html_space (c : Char) : Bool :=
  c = ' ' || c = '\t' || c = '\n' || c = '\u000C' || c = '\r'

/-- Modelled from the spec: `servo_util::str::split_html_space_chars` is not
under `src/`; the spec says `from_token_list` "splits `text` on HTML-defined
whitespace" keeping "each non-empty token".  Splitting on every whitespace
character and dropping the empty pieces realises exactly that. -/
def split_html_space_chars (s : String) : List String :=
  ((s.data.splitOnP is_html_space).filter (fun r => !r.isEmpty)).map String.mk

/-- `AttrSettingType` from `attr.rs`. -/
inductive AttrSettingType where
  | FirstSetAttr : AttrSettingType
  | ReplacedAttr : AttrSettingType
deriving DecidableEq

/-- `AttrValue` from `attr.rs`: the tagged value representation.  The `u32`
payload of `UIntAttrValue` is a natural number below `2^32`. -/
inductive AttrValue where
  | StringAttrValue (value : DOMString) : AttrValue
  | TokenListAttrValue (value : DOMString) (atoms : List Atom) : AttrValue
  | UIntAttrValue (value : DOMString) (n : Nat) : AttrValue
  | AtomAttrValue (value : Atom) : AttrValue
deriving DecidableEq

/-- `AttrValue::from_tokenlist`. -/
def AttrValue.from_tokenlist (tokens : DOMString) : AttrValue :=
  AttrValue.TokenListAttrValue tokens ((split_html_space_chars tokens).map Atom.from_slice)

/-- Modelled from the spec: Rust's `from_str::<u32>` (standard library, not
under `src/`); the spec calls it a parse of "a base-10 unsigned 32-bit
integer".  It succeeds exactly on non-empty all-digit strings whose value
fits in 32 bits. -/
def from_str_u32 (s : String) : Option Nat :=
  if s.data ≠ [] ∧ s.data.all Char.isDigit then
    let v := s.data.foldl (fun acc c => acc * 10 + (c.toNat - 48)) 0
    if v < 2 ^ 32 then some v else none
  else none

/-- `AttrValue::from_u32`: parse failure degrades to `default`. -/
def AttrValue.from_u32 (string : DOMString) (default : Nat) : AttrValue :=
  AttrValue.UIntAttrValue string ((from_str_u32 string).getD default)

/-- `AttrValue::from_atomic`. -/
def AttrValue.from_atomic (string : DOMString) : AttrValue :=
  AttrValue.AtomAttrValue (Atom.from_slice string)

/-- `AttrValue::tokens`. -/
def AttrValue.tokens : AttrValue → Option (List Atom)
  | AttrValue.TokenListAttrValue _ ts => some ts
  | _ => none

/-- `impl Str for AttrValue`, `as_slice`: the uniform textual projection. -/
def AttrValue.as_slice : AttrValue → String
  | AttrValue.StringAttrValue value => value
  | AttrValue.TokenListAttrValue value _ => value
  | AttrValue.UIntAttrValue value _ => value
  | AttrValue.AtomAttrValue value => value.as_slice

/-- The `Attr` struct from `attr.rs`.  The `reflector_` binding-glue field is
omitted (it carries no attribute state); the `JS<Element>` owner back
reference is modelled as an opaque element identifier, and the field name
`prefix_` stands for the source field `prefix`. -/
structure Attr where
  local_name : Atom
  value : AttrValue
  name : Atom
  namespace_ : Namespace
  prefix_ : Option DOMString
  owner : Nat
deriving DecidableEq

/-- A recorded invocation of one of the owner element's vtable hooks,
carrying the attribute state handed to the hook. -/
inductive HookEvent where
  | before_remove_attr (a : Attr) : HookEvent
  | after_set_attr (a : Attr) : HookEvent
deriving DecidableEq

/-- `AttrHelpers::set_value`: computes `namespace_is_null`, fires
`before_remove_attr` for a `ReplacedAttr` set on a null-namespace attribute,
swaps the value cell, then fires `after_set_attr` when the namespace is
null.  Returns the updated attribute and the hook trace in call order. -/
def set_value (self : Attr) (set_type : AttrSettingType) (value : AttrValue) :
    Attr × List HookEvent :=
  let namespace_is_null : Bool := self.namespace_ = Namespace.null
  let pre_events : List HookEvent :=
    match set_type with
    | AttrSettingType.ReplacedAttr =>
        if namespace_is_null then [HookEvent.before_remove_attr self] else []
    | AttrSettingType.FirstSetAttr => []
  let updated : Attr := { self with value := value }
  let post_events : List HookEvent :=
    if namespace_is_null then [HookEvent.after_set_attr updated] else []
  (updated, pre_events ++ post_events)

/-- `AttrHelpers::value`: the owning-thread read accessor over the value
cell. -/
def AttrHelpers.value (self : Attr) : AttrValue := self.value

/-- `AttrMethods::SetValue`: converts the text through the owner element's
`parse_attribute(namespace, local_name, value)` (an external collaborator,
passed as a function) and enters `set_value` with `ReplacedAttr`. -/
def SetValue (parse_attribute : Namespace → Atom → DOMString → AttrValue)
    (self : Attr) (value : DOMString) : Attr × List HookEvent :=
  set_value self AttrSettingType.ReplacedAttr
    (parse_attribute self.namespace_ self.local_name value)

/-- `AttrMethods::GetNamespaceURI`: the source matches the namespace atom's
text against the literal `""` (→ `None`) with a catch-all binding `url`
(→ `Some(url)`); the match is rendered as the equality test it compiles to. -/
def GetNamespaceURI (self : Attr) : Option DOMString :=
  if self.namespace_.ns_atom.as_slice = "" then none
  else some self.namespace_.ns_atom.as_slice

/-- The maximal non-empty runs of non-whitespace characters of a character
list, in left-to-right order: the claim-side characterisation of
"whitespace-delimited non-empty runs", stated independently of
`split_html_space_chars`. -/
def nonEmptyRuns (p : Char → Bool) : List Char → List (List Char)
  | [] => []
  | c :: cs =>
    if p c then nonEmptyRuns p cs
    else
      match cs with
      | [] => [[c]]
      | c2 :: _ =>
        if p c2 then [c] :: nonEmptyRuns p cs
        else
          match nonEmptyRuns p cs with
          | [] => [[c]]
          | r :: rs => (c :: r) :: rs

theorem nonEmptyRuns_eq_splitOnP (p : Char → Bool) (l : List Char) :
    nonEmptyRuns p l = (l.splitOnP p).filter (fun r => !r.isEmpty) := by
  induction l with
  | nil => simp [nonEmptyRuns]
  | cons c cs ih =>
    by_cases hc : p c
    · simpa [nonEmptyRuns, hc] using ih
    · cases cs with
      | nil => simp [nonEmptyRuns, hc, List.modifyHead]
      | cons c2 cs2 =>
        by_cases hc2 : p c2
        · rcases h2 : cs2.splitOnP p with _ | ⟨r', rs'⟩
          · exact absurd h2 (List.splitOnP_ne_nil p cs2)
          · simp [nonEmptyRuns, hc, hc2, h2, List.modifyHead] at ih ⊢
            exact ih
        · rcases h2 : cs2.splitOnP p with _ | ⟨r', rs'⟩
          · exact absurd h2 (List.splitOnP_ne_nil p cs2)
          · simp [nonEmptyRuns, hc, hc2, h2, List.modifyHead] at ih ⊢
            rw [ih]

/-- C3: for every text `t`, the textual projection of
`AttrValue::from_tokenlist(t)` is `t` itself, byte for byte. -/
theorem from_tokenlist_as_slice (t : DOMString) :
    (AttrValue.from_tokenlist t).as_slice = t := rfl

/-- A concrete null-namespace attribute (a `class`-like attribute), used by
the witnesses. -/
def sampleAttrNull : Attr :=
  { local_name := Atom.from_slice "class"
    value := AttrValue.StringAttrValue "a  b"
    name := Atom.from_slice "class"
    namespace_ := Namespace.null
    prefix_ := none
    owner := 0 }

/-- A concrete namespaced attribute (`xlink:href`), used by the witnesses. -/
def sampleAttrXlink : Attr :=
  { local_name := Atom.from_slice "href"
    value := AttrValue.StringAttrValue "u"
    name := Atom.from_slice "xlink:href"
    namespace_ := Namespace.mk (Atom.from_slice "http://www.w3.org/1999/xlink")
    prefix_ := some "xlink"
    owner := 1 }

/-- C1: on a null-namespace attribute, `set_value(ReplacedAttr, v)` fires
`before_remove_attr` exactly once with the pre-mutation state, then swaps
the value cell, then fires `after_set_attr` exactly once with the
post-mutation state; `set_value(FirstSetAttr, v)` fires only
`after_set_attr`, once, after the swap. -/
theorem set_value_null_namespace_hooks (a : Attr) (v : AttrValue)
    (h : a.namespace_ = Namespace.null) :
    (set_value a AttrSettingType.ReplacedAttr v).fst = { a with value := v }
    ∧ (set_value a AttrSettingType.ReplacedAttr v).snd
        = [HookEvent.before_remove_attr a,
           HookEvent.after_set_attr { a with value := v }]
    ∧ (set_value a AttrSettingType.FirstSetAttr v).fst = { a with value := v }
    ∧ (set_value a AttrSettingType.FirstSetAttr v).snd
        = [HookEvent.after_set_attr { a with value := v }] := by
  refine ⟨rfl, ?_, rfl, ?_⟩ <;> simp [set_value, h]

/-- Witness for C1 at a concrete null-namespace attribute. -/
theorem set_value_null_namespace_hooks_witness :
    sampleAttrNull.namespace_ = Namespace.null
    ∧ (set_value sampleAttrNull AttrSettingType.ReplacedAttr
          (AttrValue.StringAttrValue "b c")).snd
        = [HookEvent.before_remove_attr sampleAttrNull,
           HookEvent.after_set_attr
             { sampleAttrNull with value := AttrValue.StringAttrValue "b c" }] :=
  ⟨rfl,
   (set_value_null_namespace_hooks sampleAttrNull (AttrValue.StringAttrValue "b c") rfl).2.1⟩

/-- C2: on a non-null-namespace attribute, `set_value` with either kind
fires neither `before_remove_attr` nor `after_set_attr`. -/
theorem set_value_nonnull_namespace_no_hooks (a : Attr) (v : AttrValue)
    (k : AttrSettingType) (h : a.namespace_ ≠ Namespace.null) :
    (set_value a k v).snd = [] := by
  cases k <;> simp [set_value, h]

/-- Witness for C2 at a concrete namespaced attribute. -/
theorem set_value_nonnull_namespace_no_hooks_witness :
    sampleAttrXlink.namespace_ ≠ Namespace.null
    ∧ (set_value sampleAttrXlink AttrSettingType.ReplacedAttr
          (AttrValue.StringAttrValue "v2")).snd = [] :=
  ⟨by decide,
   set_value_nonnull_namespace_no_hooks sampleAttrXlink
     (AttrValue.StringAttrValue "v2") AttrSettingType.ReplacedAttr (by decide)⟩

/-- C4: the token list stored by `from_tokenlist(t)` and returned by
`tokens()` is exactly the interning, in left-to-right order, of the
non-empty whitespace-delimited runs of `t` (characterised independently by
`nonEmptyRuns`): one token per run, same order, nothing added or dropped. -/
theorem from_tokenlist_tokens (t : DOMString) :
    (AttrValue.from_tokenlist t).tokens
      = some ((nonEmptyRuns is_html_space t.data).map
          (fun r => Atom.from_slice (String.mk r))) := by
  simp [AttrValue.from_tokenlist, AttrValue.tokens, split_html_space_chars,
    nonEmptyRuns_eq_splitOnP, List.map_map, Function.comp]

/-- C5: `from_u32(t, d)` stores the parsed value when `t` parses as a
base-10 unsigned 32-bit integer, stores `d` when it does not, and in both
cases keeps `t` itself as the textual projection; no error is surfaced. -/
theorem from_u32_spec (t : DOMString) (d : Nat) :
    (AttrValue.from_u32 t d).as_slice = t
    ∧ (∀ v, from_str_u32 t = some v →
        AttrValue.from_u32 t d = AttrValue.UIntAttrValue t v)
    ∧ (from_str_u32 t = none →
        AttrValue.from_u32 t d = AttrValue.UIntAttrValue t d) := by
  refine ⟨rfl, fun v hv => ?_, fun hv => ?_⟩ <;>
    simp [AttrValue.from_u32, hv]

/-- Witness for C5 at a parsing and at a non-parsing input. -/
theorem from_u32_spec_witness :
    AttrValue.from_u32 "123" 7 = AttrValue.UIntAttrValue "123" 123
    ∧ AttrValue.from_u32 "abc" 7 = AttrValue.UIntAttrValue "abc" 7 :=
  ⟨(from_u32_spec "123" 7).2.1 123 (by decide),
   (from_u32_spec "abc" 7).2.2 (by decide)⟩

/-- C6: `tokens()` is `some` exactly on the `TokenListAttrValue` variant, in
which case it returns the token list stored at construction; the other
three variants give `none`. -/
theorem tokens_some_iff (v : AttrValue) :
    ((AttrValue.tokens v).isSome ↔
        ∃ s ts, v = AttrValue.TokenListAttrValue s ts)
    ∧ (∀ s ts, (AttrValue.TokenListAttrValue s ts).tokens = some ts)
    ∧ (∀ s, (AttrValue.StringAttrValue s).tokens = none)
    ∧ (∀ s n, (AttrValue.UIntAttrValue s n).tokens = none)
    ∧ (∀ a, (AttrValue.AtomAttrValue a).tokens = none) := by
  refine ⟨?_, fun s ts => rfl, fun s => rfl, fun s n => rfl, fun a => rfl⟩
  cases v <;> simp [AttrValue.tokens]

/-- Witness for C6 at concrete variants. -/
theorem tokens_some_iff_witness :
    (AttrValue.TokenListAttrValue "a b" [Atom.from_slice "a", Atom.from_slice "b"]).tokens
      = some [Atom.from_slice "a", Atom.from_slice "b"]
    ∧ (AttrValue.StringAttrValue "x").tokens = none :=
  ⟨(tokens_some_iff (AttrValue.TokenListAttrValue "a b"
      [Atom.from_slice "a", Atom.from_slice "b"])).2.1 "a b"
      [Atom.from_slice "a", Atom.from_slice "b"],
   (tokens_some_iff (AttrValue.StringAttrValue "x")).2.2.1 "x"⟩

/-- C7: `GetNamespaceURI` returns `none` exactly when the namespace is the
null (empty) namespace; otherwise it returns `some` of the namespace text,
and what it returns is never `some ""`. -/
theorem GetNamespaceURI_spec (a : Attr) :
    (GetNamespaceURI a = none ↔ a.namespace_ = Namespace.null)
    ∧ (∀ s, GetNamespaceURI a = some s →
        s = a.namespace_.ns_atom.as_slice ∧ s ≠ "") := by
  by_cases hns : a.namespace_.ns_atom.as_slice = ""
  · have h0 : a.namespace_ = Namespace.null := by
      rcases a with ⟨ln, v, n, ⟨⟨s⟩⟩, p, o⟩
      simp only [Atom.as_slice] at hns
      simp [Namespace.null, Atom.from_slice, hns]
    simp [GetNamespaceURI, hns, h0, Namespace.null, Atom.from_slice, Atom.as_slice]
  · have h0 : a.namespace_ ≠ Namespace.null := by
      intro h
      rw [h] at hns
      exact hns rfl
    refine ⟨by simp [GetNamespaceURI, hns, h0], fun s hs => ?_⟩
    simp [GetNamespaceURI, hns] at hs
    exact ⟨hs.symm, hs ▸ hns⟩

/-- Witness for C7 at a null-namespace and at a namespaced attribute. -/
theorem GetNamespaceURI_spec_witness :
    GetNamespaceURI sampleAttrNull = none
    ∧ GetNamespaceURI sampleAttrXlink = some "http://www.w3.org/1999/xlink"
    ∧ "http://www.w3.org/1999/xlink" ≠ "" :=
  ⟨(GetNamespaceURI_spec sampleAttrNull).1.mpr rfl,
   by decide,
   ((GetNamespaceURI_spec sampleAttrXlink).2 "http://www.w3.org/1999/xlink" (by decide)).2⟩

/-- C8: immediately after `set_value` with either kind, the owning-thread
accessor `AttrHelpers::value` reads back exactly the new value, so its
textual projection is the new value's — never the previous one. -/
theorem set_value_reads_back_new_value (a : Attr) (k : AttrSettingType) (v : AttrValue) :
    AttrHelpers.value (set_value a k v).fst = v
    ∧ (AttrHelpers.value (set_value a k v).fst).as_slice = v.as_slice := by
  cases k <;> exact ⟨rfl, rfl⟩

/-- C9: `set_value` with either kind changes only the value cell: the
identity fields `local_name`, `name`, `namespace`, `prefix` and the owner
reference are untouched. -/
theorem set_value_frame (a : Attr) (k : AttrSettingType) (v : AttrValue) :
    (set_value a k v).fst.local_name = a.local_name
    ∧ (set_value a k v).fst.name = a.name
    ∧ (set_value a k v).fst.namespace_ = a.namespace_
    ∧ (set_value a k v).fst.prefix_ = a.prefix_
    ∧ (set_value a k v).fst.owner = a.owner := by
  cases k <;> exact ⟨rfl, rfl, rfl, rfl, rfl⟩

/-- C10: the script-facing `SetValue(t)` first converts `t` through the
owner's `parse_attribute(namespace, local_name, t)` and always enters
`set_value` with the `ReplacedAttr` kind; hence on a null-namespace
attribute every script-driven set fires `before_remove_attr`, even a first
set through this API. -/
theorem SetValue_always_replaced
    (parse_attribute : Namespace → Atom → DOMString → AttrValue)
    (a : Attr) (t : DOMString) :
    SetValue parse_attribute a t
      = set_value a AttrSettingType.ReplacedAttr
          (parse_attribute a.namespace_ a.local_name t)
    ∧ (a.namespace_ = Namespace.null →
        (SetValue parse_attribute a t).snd
          = [HookEvent.before_remove_attr a,
             HookEvent.after_set_attr (SetValue parse_attribute a t).fst]) := by
  refine ⟨rfl, fun h => ?_⟩
  simp [SetValue, set_value, h]

/-- Witness for C10 at a concrete null-namespace attribute with a concrete
parser. -/
theorem SetValue_always_replaced_witness :
    (SetValue (fun _ _ s => AttrValue.StringAttrValue s) sampleAttrNull "b c").snd
      = [HookEvent.before_remove_attr sampleAttrNull,
         HookEvent.after_set_attr
           (SetValue (fun _ _ s => AttrValue.StringAttrValue s) sampleAttrNull "b c").fst] :=
  (SetValue_always_replaced (fun _ _ s => AttrValue.StringAttrValue s)
    sampleAttrNull "b c").2 rfl
